import Mathlib

/-!
Verification development for the go-mock JSON CRUD server
(`cmd/go-mock` package: `Server`, `NewServer`, `findItemIndex`,
`handleCollection`, `handleGet`, `handlePost`, `handlePut`, `handleDelete`).

The Go code stores dynamically typed JSON documents
(`map[string][]interface{}`).  We embed those documents as an inductive
`JValue`.  Two distinct numeric constructors are needed because Go's
`encoding/json` decodes every JSON number into a `float64`, while the
handlers themselves store Go `int` values into records
(`newItem["id"] = len(...)+1` in `handlePost`, `updatedItem["id"] = id` in
`handlePut`); the type assertion `itemMap["id"].(float64)` in
`findItemIndex` and in `handleGet`'s scan succeeds on the former and
panics on the latter.  JSON numbers are modelled with integer values
(`Int`): every identifier in the system is an integer, and on an integral
`float64` the Go conversion `int(f)` is the identity, so the truncating
conversion needs no separate model.

Side effects are made explicit:
* the HTTP response is a `Response` value (status, optional JSON body,
  optional `http.Error` message; the text of a `json.Decode` error is
  abstracted to a fixed string);
* a run-time panic from a failed type assertion is the `Outcome.panicked`
  constructor (in Go the `net/http` server recovers it; no store mutation
  has happened at any panic site);
* `saveData` (marshal + `ioutil.WriteFile`) is modelled by a boolean
  `saveOk` input saying whether the write succeeds — the handlers consult
  it exactly where the Go code calls `s.saveData()`;
* `os.Open`/`json.Unmarshal` in `NewServer` are modelled by a `LoadInput`
  describing what the file system and decoder deliver.
-/

namespace GoMock

/-- Dynamic JSON value as held in Go's `interface{}` slots.  `vNum` is a
number produced by JSON decoding (a `float64` in Go, integral here);
`vInt` is a Go `int` stored directly into a record by the handlers. -/
inductive JValue where
  | vNull
  | vBool (b : Bool)
  | vStr (s : String)
  | vNum (n : Int)
  | vInt (n : Int)
  | vArr (elems : List JValue)
  | vObj (fields : List (String × JValue))

/-- A record: Go's `map[string]interface{}`, as an association list with
distinct keys (JSON decoding and Go map writes keep keys unique). -/
abbrev RecordDoc := List (String × JValue)

/-- The store: Go's `map[string][]interface{}` mapping collection names to
record sequences. -/
abbrev Store := List (String × List JValue)

/-- Go map read `m[k]` distinguishing presence: `none` when the key is
absent. -/
def recGet : RecordDoc → String → Option JValue
  | [], _ => none
  | (k, v) :: rest, key => if k = key then some v else recGet rest key

/-- Go map write `m[k] = v`. -/
def recSet : RecordDoc → String → JValue → RecordDoc
  | [], key, v => [(key, v)]
  | (k, w) :: rest, key, v =>
      if k = key then (key, v) :: rest else (k, w) :: recSet rest key v

/-- Read of `s.data[collection]` distinguishing key presence (`exists` in
the Go two-value form). -/
def storeGet : Store → String → Option (List JValue)
  | [], _ => none
  | (k, v) :: rest, key => if k = key then some v else storeGet rest key

/-- Go map write `s.data[collection] = items`. -/
def storeSet : Store → String → List JValue → Store
  | [], key, v => [(key, v)]
  | (k, w) :: rest, key, v =>
      if k = key then (key, v) :: rest else (k, w) :: storeSet rest key v

/-- Plain Go map read `s.data[collection]`: an absent key reads as the nil
slice, which ranges and appends like the empty list. -/
def storeGetD (s : Store) (c : String) : List JValue :=
  (storeGet s c).getD []

/-- Digit accumulation of `strconv.Atoi`: every character must be a
decimal digit. -/
def atoiDigits : List Char → Nat → Option Nat
  | [], acc => some acc
  | c :: rest, acc =>
      if c.isDigit then atoiDigits rest (acc * 10 + (c.toNat - 48)) else none

/-- The `strconv.Atoi` parse: optional single leading sign, then one or
more decimal digits, nothing else.  (The `ErrRange` overflow case of the
64-bit implementation is not modelled; `Int` is unbounded.) -/
def atoi (s : String) : Option Int :=
  match s.toList with
  | [] => none
  | '+' :: rest =>
      match rest with
      | [] => none
      | _ => (atoiDigits rest 0).map (fun n => (n : Int))
  | '-' :: rest =>
      match rest with
      | [] => none
      | _ => (atoiDigits rest 0).map (fun n => -(n : Int))
  | cs => (atoiDigits cs 0).map (fun n => (n : Int))

/-- Characters of `strings.Trim(path, "/")`. -/
def trimSlashPath (cs : List Char) : List Char :=
  ((cs.dropWhile (fun c => c = '/')).reverse.dropWhile (fun c => c = '/')).reverse

/-- Accumulating splitter matching `strings.Split(s, "/")`: on the empty
string it yields `[""]`, and adjacent separators yield empty segments. -/
def splitSlash : List Char → List Char → List (List Char)
  | [], acc => [acc.reverse]
  | c :: rest, acc =>
      if c = '/' then acc.reverse :: splitSlash rest [] else splitSlash rest (c :: acc)

/-- The path decoding of `handleCollection`:
`strings.Split(strings.Trim(r.URL.Path, "/"), "/")`. -/
def splitPath (path : String) : List String :=
  (splitSlash (trimSlashPath path.toList) []).map (fun cs => String.mk cs)

/-- Result of the id extraction `item.(map[string]interface{})` followed by
`itemMap["id"].(float64)` and `int(...)`: `none` when either type
assertion would panic (non-object item, absent `id`, or an `id` whose
dynamic type is not `float64` — in particular a Go `int`). -/
def itemIdAssert (item : JValue) : Option Int :=
  match item with
  | .vObj fields =>
      match recGet fields "id" with
      | some (.vNum n) => some n
      | _ => none
  | _ => none

/-- Outcome of a lookup loop: a panic from a failed type assertion, the
index of the first match, or no match. -/
inductive FindResult where
  | panicked
  | found (i : Nat)
  | notFound
deriving DecidableEq

/-- The loop of `findItemIndex`, carrying the running index `i`. -/
def findScan (items : List JValue) (id : Int) (i : Nat) : FindResult :=
  match items with
  | [] => .notFound
  | item :: rest =>
      match itemIdAssert item with
      | none => .panicked
      | some n => if n = id then .found i else findScan rest id (i + 1)

/-- `findItemIndex`: linear scan of `s.data[collection]` for the first
record whose asserted `id` equals the target. -/
def findItemIndex (store : Store) (collection : String) (id : Int) : FindResult :=
  findScan (storeGetD store collection) id 0

/-- An HTTP response: the returned status, the JSON-encoded body when one
is written, and the `http.Error` message when one is written. -/
structure Response where
  status : Nat
  body : Option JValue
  err : Option String

/-- Result of one handler call: a normal response, or a run-time panic
from a failed type assertion. -/
inductive Outcome where
  | panicked
  | resp (r : Response)

/-- Status of an outcome, when it has one. -/
def outStatus : Outcome → Option Nat
  | .panicked => none
  | .resp r => some r.status

/-- The scan inside `handleGet`'s single-item branch; it returns the
matching record itself (the loop repeats `findItemIndex`'s assertions
inline). -/
inductive GetScan where
  | panicked
  | foundItem (fields : RecordDoc)
  | notFound

/-- Loop body of `handleGet`'s single-item branch. -/
def getScanLoop (items : List JValue) (id : Int) : GetScan :=
  match items with
  | [] => .notFound
  | item :: rest =>
      match item with
      | .vObj fields =>
          match recGet fields "id" with
          | some (.vNum n) =>
              if n = id then .foundItem fields else getScanLoop rest id
          | _ => .panicked
      | _ => .panicked

/-- `handleGet`: collection-existence check first, then (when an id
segment is present) `strconv.Atoi`, then the inline scan. -/
def handleGet (store : Store) (collection : String) (parts : List String) :
    Store × Outcome :=
  match storeGet store collection with
  | none => (store, .resp ⟨404, none, some "Collection not found"⟩)
  | some items =>
      if parts.length > 1 then
        match atoi (parts.getD 1 "") with
        | none => (store, .resp ⟨400, none, some "Invalid ID"⟩)
        | some id =>
            match getScanLoop items id with
            | .panicked => (store, .panicked)
            | .foundItem fields => (store, .resp ⟨200, some (.vObj fields), none⟩)
            | .notFound => (store, .resp ⟨404, none, some "Item not found"⟩)
      else (store, .resp ⟨200, some (.vArr items), none⟩)

/-- `handlePost`: the decoded body arrives as `none` on a `json.Decode`
failure (its error text is abstracted).  When the record has no `id` key,
`newItem["id"] = len(s.data[collection]) + 1` stores a Go `int`. -/
def handlePost (store : Store) (collection : String) (body : Option RecordDoc)
    (saveOk : Bool) : Store × Outcome :=
  match body with
  | none => (store, .resp ⟨400, none, some "body decode error"⟩)
  | some newItem0 =>
      let newItem :=
        match recGet newItem0 "id" with
        | some _ => newItem0
        | none =>
            recSet newItem0 "id" (.vInt ((storeGetD store collection).length + 1))
      let store1 := storeSet store collection (storeGetD store collection ++ [.vObj newItem])
      if saveOk then (store1, .resp ⟨201, some (.vObj newItem), none⟩)
      else (store1, .resp ⟨500, none, some "Failed to save data"⟩)

/-- `handlePut`: segment-count check, `Atoi`, body decode, `findItemIndex`;
on success `updatedItem["id"] = id` stores a Go `int` and the element at
the found index is replaced wholesale.  (`findItemIndex` can only find an
index in a present collection, so writing through `storeSet` coincides
with the Go in-place slice-element assignment.) -/
def handlePut (store : Store) (collection : String) (parts : List String)
    (body : Option RecordDoc) (saveOk : Bool) : Store × Outcome :=
  if parts.length < 2 then (store, .resp ⟨400, none, some "ID required"⟩)
  else
    match atoi (parts.getD 1 "") with
    | none => (store, .resp ⟨400, none, some "Invalid ID"⟩)
    | some id =>
        match body with
        | none => (store, .resp ⟨400, none, some "body decode error"⟩)
        | some updatedItem0 =>
            match findItemIndex store collection id with
            | .panicked => (store, .panicked)
            | .notFound => (store, .resp ⟨404, none, some "Item not found"⟩)
            | .found idx =>
                let updatedItem := recSet updatedItem0 "id" (.vInt id)
                let store1 :=
                  storeSet store collection
                    ((storeGetD store collection).set idx (.vObj updatedItem))
                if saveOk then (store1, .resp ⟨200, some (.vObj updatedItem), none⟩)
                else (store1, .resp ⟨500, none, some "Failed to save data"⟩)

/-- `handleDelete`: segment-count check, `Atoi`, `findItemIndex`; on
success `append(items[:idx], items[idx+1:]...)` drops exactly the found
element, and the `200` response writes no body. -/
def handleDelete (store : Store) (collection : String) (parts : List String)
    (saveOk : Bool) : Store × Outcome :=
  if parts.length < 2 then (store, .resp ⟨400, none, some "ID required"⟩)
  else
    match atoi (parts.getD 1 "") with
    | none => (store, .resp ⟨400, none, some "Invalid ID"⟩)
    | some id =>
        match findItemIndex store collection id with
        | .panicked => (store, .panicked)
        | .notFound => (store, .resp ⟨404, none, some "Item not found"⟩)
        | .found idx =>
            let items := storeGetD store collection
            let store1 := storeSet store collection (items.take idx ++ items.drop (idx + 1))
            if saveOk then (store1, .resp ⟨200, none, none⟩)
            else (store1, .resp ⟨500, none, some "Failed to save data"⟩)

/-- `handleCollection`: path decode, then dispatch on the HTTP method with
a `405` fallback.  (`splitSlash` never yields `[]`, matching Go where
`parts[0]` always exists.) -/
def handleCollection (store : Store) (method : String) (path : String)
    (body : Option RecordDoc) (saveOk : Bool) : Store × Outcome :=
  let parts := splitPath path
  let collection := parts.getD 0 ""
  match method with
  | "GET" => handleGet store collection parts
  | "POST" => handlePost store collection body saveOk
  | "PUT" => handlePut store collection parts body saveOk
  | "DELETE" => handleDelete store collection parts saveOk
  | _ => (store, .resp ⟨405, none, some "Method not allowed"⟩)

/-- What the file system and JSON decoder deliver to `NewServer`:
`os.Open` fails, or the bytes do not unmarshal as the store shape, or they
unmarshal to a store. -/
inductive LoadInput where
  | fileAbsent
  | unparsable
  | parsed (st : Store)

/-- `NewServer`: propagate the `os.Open` error, propagate the
`json.Unmarshal` error, otherwise the server's data is exactly the decoded
document (`Unmarshal` fills the freshly made empty map with the file's
top-level entries). -/
def newServer : LoadInput → Option Store
  | .fileAbsent => none
  | .unparsable => none
  | .parsed st => some st

/-! ### Helper lemmas about the embedded maps and scans -/

theorem recGet_recSet_self (r : RecordDoc) (key : String) (v : JValue) :
    recGet (recSet r key v) key = some v := by
  induction r with
  | nil => simp [recSet, recGet]
  | cons hd tl ih =>
      obtain ⟨k, w⟩ := hd
      by_cases h : k = key
      · simp [recSet, recGet, h]
      · simp [recSet, recGet, h, ih]

theorem storeGet_storeSet_self (s : Store) (k : String) (v : List JValue) :
    storeGet (storeSet s k v) k = some v := by
  induction s with
  | nil => simp [storeSet, storeGet]
  | cons hd tl ih =>
      obtain ⟨k', v'⟩ := hd
      by_cases h : k' = k
      · simp [storeSet, storeGet, h]
      · simp [storeSet, storeGet, h, ih]

theorem storeGet_storeSet_ne (s : Store) (k k' : String) (v : List JValue)
    (h : k' ≠ k) : storeGet (storeSet s k v) k' = storeGet s k' := by
  induction s with
  | nil =>
      have hne : ¬k = k' := fun hh => h hh.symm
      simp [storeSet, storeGet, hne]
  | cons hd tl ih =>
      obtain ⟨k₀, v₀⟩ := hd
      by_cases hk : k₀ = k
      · subst hk
        have hne : ¬k₀ = k' := fun hh => h hh.symm
        simp [storeSet, storeGet, hne]
      · simp [storeSet, storeGet, hk, ih]

theorem storeGet_isSome_storeSet (s : Store) (k c : String) (v : List JValue)
    (h : (storeGet s c).isSome = true) :
    (storeGet (storeSet s k v) c).isSome = true := by
  by_cases hk : c = k
  · subst hk; simp [storeGet_storeSet_self]
  · rw [storeGet_storeSet_ne s k c v hk]; exact h

theorem itemIdAssert_some (item : JValue) (n : Int) (h : itemIdAssert item = some n) :
    ∃ fields, item = JValue.vObj fields ∧ recGet fields "id" = some (JValue.vNum n) := by
  cases item with
  | vObj fields =>
      refine ⟨fields, rfl, ?_⟩
      cases hrec : recGet fields "id" with
      | none => simp [itemIdAssert, hrec] at h
      | some v =>
          cases v with
          | vNum m =>
              have hmn : m = n := by simpa [itemIdAssert, hrec] using h
              subst hmn; rfl
          | vNull => simp [itemIdAssert, hrec] at h
          | vBool b => simp [itemIdAssert, hrec] at h
          | vStr s => simp [itemIdAssert, hrec] at h
          | vInt m => simp [itemIdAssert, hrec] at h
          | vArr es => simp [itemIdAssert, hrec] at h
          | vObj fs => simp [itemIdAssert, hrec] at h
  | vNull => simp [itemIdAssert] at h
  | vBool b => simp [itemIdAssert] at h
  | vStr s => simp [itemIdAssert] at h
  | vNum m => simp [itemIdAssert] at h
  | vInt m => simp [itemIdAssert] at h
  | vArr es => simp [itemIdAssert] at h

theorem findScan_found_spec (items : List JValue) (id : Int) :
    ∀ k i, findScan items id k = FindResult.found i →
      k ≤ i ∧ i - k < items.length ∧
      itemIdAssert (items.getD (i - k) JValue.vNull) = some id ∧
      ∀ l, l < i - k →
        ∃ n, itemIdAssert (items.getD l JValue.vNull) = some n ∧ n ≠ id := by
  induction items with
  | nil => intro k i h; simp [findScan] at h
  | cons item rest ih =>
      intro k i h
      simp only [findScan] at h
      cases hid : itemIdAssert item with
      | none => simp [hid] at h
      | some n =>
          simp only [hid] at h
          by_cases hn : n = id
          · rw [if_pos hn] at h
            simp only [FindResult.found.injEq] at h
            subst h
            refine ⟨le_refl _, by simp, ?_, ?_⟩
            · simpa [hn] using hid
            · intro l hl; omega
          · rw [if_neg hn] at h
            obtain ⟨h1, h2, h3, h4⟩ := ih (k + 1) i h
            have hm : i - k = (i - (k + 1)) + 1 := by omega
            refine ⟨by omega, by simp; omega, ?_, ?_⟩
            · rw [hm, List.getD_cons_succ]; exact h3
            · intro l hl
              cases l with
              | zero => exact ⟨n, by simpa using hid, hn⟩
              | succ l' =>
                  rw [List.getD_cons_succ]
                  exact h4 l' (by omega)

theorem getScanLoop_agrees (items : List JValue) (id : Int) :
    ∀ k i, findScan items id k = FindResult.found i →
      ∃ fields, items.getD (i - k) JValue.vNull = JValue.vObj fields ∧
        getScanLoop items id = GetScan.foundItem fields := by
  induction items with
  | nil => intro k i h; simp [findScan] at h
  | cons item rest ih =>
      intro k i h
      simp only [findScan] at h
      cases hid : itemIdAssert item with
      | none => simp [hid] at h
      | some n =>
          simp only [hid] at h
          obtain ⟨fields, rfl, hrec⟩ := itemIdAssert_some item n hid
          by_cases hn : n = id
          · rw [if_pos hn] at h
            simp only [FindResult.found.injEq] at h
            subst h
            exact ⟨fields, by simp, by simp [getScanLoop, hrec, hn]⟩
          · rw [if_neg hn] at h
            obtain ⟨fields', hget, hscan⟩ := ih (k + 1) i h
            have hk1 : k + 1 ≤ i := (findScan_found_spec rest id (k + 1) i h).1
            have hm : i - k = (i - (k + 1)) + 1 := by omega
            refine ⟨fields', ?_, ?_⟩
            · rw [hm, List.getD_cons_succ]; exact hget
            · simp [getScanLoop, hrec, hn, hscan]

theorem storeGet_of_found (store : Store) (c : String) (id : Int) (idx : Nat)
    (h : findItemIndex store c id = FindResult.found idx) :
    storeGet store c = some (storeGetD store c) := by
  cases hs : storeGet store c with
  | none =>
      exfalso
      unfold findItemIndex storeGetD at h
      rw [hs] at h
      simp [findScan] at h
  | some items => simp [storeGetD, hs]

theorem handleGet_fst (store : Store) (c : String) (parts : List String) :
    (handleGet store c parts).1 = store := by
  unfold handleGet
  repeat' split
  all_goals rfl

theorem handlePost_keys (store : Store) (c : String) (body : Option RecordDoc)
    (saveOk : Bool) (cc : String) (h : (storeGet store cc).isSome = true) :
    (storeGet (handlePost store c body saveOk).1 cc).isSome = true := by
  simp only [handlePost]
  repeat' split
  all_goals first
    | exact h
    | exact storeGet_isSome_storeSet _ _ _ _ h

theorem handlePut_keys (store : Store) (c : String) (parts : List String)
    (body : Option RecordDoc) (saveOk : Bool) (cc : String)
    (h : (storeGet store cc).isSome = true) :
    (storeGet (handlePut store c parts body saveOk).1 cc).isSome = true := by
  simp only [handlePut]
  repeat' split
  all_goals first
    | exact h
    | exact storeGet_isSome_storeSet _ _ _ _ h

theorem handleDelete_keys (store : Store) (c : String) (parts : List String)
    (saveOk : Bool) (cc : String) (h : (storeGet store cc).isSome = true) :
    (storeGet (handleDelete store c parts saveOk).1 cc).isSome = true := by
  simp only [handleDelete]
  repeat' split
  all_goals first
    | exact h
    | exact storeGet_isSome_storeSet _ _ _ _ h

/-! ### Claim theorems -/

/-- C1, counterexample: the claim says a non-integer id token always yields
400 regardless of whether the collection exists, but on
`GET /posts/abc` against a store with no `posts` key the collection check
fires first and the response is 404, not 400. -/
theorem c1_counterexample :
    outStatus (handleCollection [] "GET" "/posts/abc" none true).2 = some 404 ∧
    handleCollection [] "GET" "/posts/abc" none true =
      ([], Outcome.resp ⟨404, none, some "Collection not found"⟩) :=
  ⟨rfl, rfl⟩

/-- C1, amended: a non-integer id token on PUT or DELETE yields 400 for
every store, with the store untouched (the parse precedes any store
lookup); on GET the collection lookup comes first, so an absent collection
yields 404 and the 400 is produced exactly when the collection exists. -/
theorem c1_invalid_id_token (store : Store) (c tok : String)
    (body : Option RecordDoc) (saveOk : Bool) (htok : atoi tok = none) :
    handlePut store c [c, tok] body saveOk =
      (store, Outcome.resp ⟨400, none, some "Invalid ID"⟩) ∧
    handleDelete store c [c, tok] saveOk =
      (store, Outcome.resp ⟨400, none, some "Invalid ID"⟩) ∧
    (storeGet store c = none →
      handleGet store c [c, tok] =
        (store, Outcome.resp ⟨404, none, some "Collection not found"⟩)) ∧
    (∀ items, storeGet store c = some items →
      handleGet store c [c, tok] =
        (store, Outcome.resp ⟨400, none, some "Invalid ID"⟩)) := by
  refine ⟨?_, ?_, ?_, ?_⟩
  · simp [handlePut, htok]
  · simp [handleDelete, htok]
  · intro h; simp [handleGet, h]
  · intro items h; simp [handleGet, h, htok]

/-- C1, witness: DELETE with the token `abc` on a store holding `posts`
yields 400 and leaves the store alone. -/
theorem c1_witness :
    atoi "abc" = none ∧
    handleDelete [("posts", [])] "posts" ["posts", "abc"] true =
      ([("posts", [])], Outcome.resp ⟨400, none, some "Invalid ID"⟩) :=
  ⟨rfl, (c1_invalid_id_token [("posts", [])] "posts" "abc" none true rfl).2.1⟩

/-- C2: `POST /posts` with body `{"title":"x"}` on an empty store
auto-assigns `id = 1` as a Go `int`; the claim says every later id lookup
on that record still completes with a found/not-found result, but both the
single-item GET scan and `findItemIndex` panic on the failed
`.(float64)` type assertion. -/
theorem c2_auto_id_breaks_lookup :
    handlePost [] "posts" (some [("title", JValue.vStr "x")]) true =
      ([("posts", [JValue.vObj [("title", JValue.vStr "x"), ("id", JValue.vInt 1)]])],
        Outcome.resp
          ⟨201, some (JValue.vObj [("title", JValue.vStr "x"), ("id", JValue.vInt 1)]),
            none⟩) ∧
    (handleGet [("posts", [JValue.vObj [("title", JValue.vStr "x"), ("id", JValue.vInt 1)]])]
        "posts" ["posts", "1"]).2 = Outcome.panicked ∧
    findItemIndex [("posts", [JValue.vObj [("title", JValue.vStr "x"), ("id", JValue.vInt 1)]])]
        "posts" 1 = FindResult.panicked :=
  ⟨rfl, rfl, rfl⟩

/-- C3: the first POST does auto-assign the count-based id 1 and append,
a client-supplied id is stored as given with no uniqueness check, and on a
collection whose single decoded record has id 1 a DELETE followed by a
POST re-assigns id 1 (count-based, not max-based); but the claim's literal
POST-then-DELETE sequence panics in DELETE's `findItemIndex`, because the
auto-assigned id is a Go `int` and the `.(float64)` assertion fails. -/
theorem c3_count_based_ids_and_panic :
    (handlePost [] "posts" (some [("title", JValue.vStr "x")]) true).2 =
      Outcome.resp
        ⟨201, some (JValue.vObj [("title", JValue.vStr "x"), ("id", JValue.vInt 1)]), none⟩ ∧
    (handleDelete (handlePost [] "posts" (some [("title", JValue.vStr "x")]) true).1
        "posts" ["posts", "1"] true).2 = Outcome.panicked ∧
    (handlePost [("posts", [JValue.vObj [("id", JValue.vNum 1)]])] "posts"
        (some [("id", JValue.vNum 1)]) true).1 =
      [("posts", [JValue.vObj [("id", JValue.vNum 1)], JValue.vObj [("id", JValue.vNum 1)]])] ∧
    (handlePost (handleDelete [("posts", [JValue.vObj [("id", JValue.vNum 1)]])] "posts"
          ["posts", "1"] true).1
        "posts" (some [("title", JValue.vStr "y")]) true).2 =
      Outcome.resp
        ⟨201, some (JValue.vObj [("title", JValue.vStr "y"), ("id", JValue.vInt 1)]), none⟩ :=
  ⟨rfl, rfl, rfl, rfl⟩

/-- C7: on `GET /{c}` an absent collection key yields 404 ("Collection not
found") whatever else the store holds, while a key mapped to the empty
sequence yields 200 with the empty JSON array. -/
theorem c7_absent_vs_empty_collection (store : Store) (c : String) :
    (storeGet store c = none →
      handleGet store c [c] =
        (store, Outcome.resp ⟨404, none, some "Collection not found"⟩)) ∧
    (storeGet store c = some [] →
      handleGet store c [c] =
        (store, Outcome.resp ⟨200, some (JValue.vArr []), none⟩)) := by
  constructor
  · intro h; simp [handleGet, h]
  · intro h; simp [handleGet, h]

/-- C7, witness: against the store `{"users": []}`, `GET /posts` is 404
and `GET /users` is 200 with `[]`. -/
theorem c7_witness :
    storeGet [("users", ([] : List JValue))] "posts" = none ∧
    storeGet [("users", ([] : List JValue))] "users" = some [] ∧
    handleGet [("users", ([] : List JValue))] "posts" ["posts"] =
      ([("users", [])], Outcome.resp ⟨404, none, some "Collection not found"⟩) ∧
    handleGet [("users", ([] : List JValue))] "users" ["users"] =
      ([("users", [])], Outcome.resp ⟨200, some (JValue.vArr []), none⟩) :=
  ⟨rfl, rfl, (c7_absent_vs_empty_collection _ _).1 rfl,
    (c7_absent_vs_empty_collection _ _).2 rfl⟩

/-- C9: `NewServer` propagates an open failure and an unmarshal failure as
errors (no empty-store fallback), and on success the in-memory store is
exactly the deserialized file content. -/
theorem c9_load_no_fallback :
    newServer LoadInput.fileAbsent = none ∧
    newServer LoadInput.unparsable = none ∧
    ∀ st : Store, newServer (LoadInput.parsed st) = some st :=
  ⟨rfl, rfl, fun _ => rfl⟩

/-- C4: on `PUT /{c}/{tok}` with an integer token, a decodable body and a
found index, the stored element at that index is replaced wholesale by the
body's record with its `id` forced to the path id, the 200 body is that
replacement record, and its `id` field equals the path id. -/
theorem c4_put_full_replace (store : Store) (c tok : String) (id : Int)
    (rec : RecordDoc) (idx : Nat)
    (htok : atoi tok = some id)
    (hfind : findItemIndex store c id = FindResult.found idx) :
    handlePut store c [c, tok] (some rec) true =
      (storeSet store c
        ((storeGetD store c).set idx (JValue.vObj (recSet rec "id" (JValue.vInt id)))),
        Outcome.resp ⟨200, some (JValue.vObj (recSet rec "id" (JValue.vInt id))), none⟩) ∧
    recGet (recSet rec "id" (JValue.vInt id)) "id" = some (JValue.vInt id) := by
  constructor
  · simp [handlePut, htok, hfind]
  · exact recGet_recSet_self rec "id" _

/-- C4, witness: replacing the record with id 1 by a body that carries
`id = 99` and a fresh `title` keeps only the body's fields, with the id
forced back to 1. -/
theorem c4_witness :
    atoi "1" = some 1 ∧
    findItemIndex [("posts", [JValue.vObj [("id", JValue.vNum 1), ("title", JValue.vStr "old")]])]
      "posts" 1 = FindResult.found 0 ∧
    handlePut [("posts", [JValue.vObj [("id", JValue.vNum 1), ("title", JValue.vStr "old")]])]
        "posts" ["posts", "1"]
        (some [("id", JValue.vNum 99), ("title", JValue.vStr "new")]) true =
      ([("posts", [JValue.vObj [("id", JValue.vInt 1), ("title", JValue.vStr "new")]])],
        Outcome.resp
          ⟨200, some (JValue.vObj [("id", JValue.vInt 1), ("title", JValue.vStr "new")]), none⟩) :=
  ⟨rfl, rfl,
    (c4_put_full_replace
        [("posts", [JValue.vObj [("id", JValue.vNum 1), ("title", JValue.vStr "old")]])]
        "posts" "1" 1 [("id", JValue.vNum 99), ("title", JValue.vStr "new")] 0 rfl rfl).1⟩

/-- C5: on `DELETE /{c}/{tok}` with an integer token and a found index,
exactly the element at that index — the first whose id matches — is
removed, the rest keep their relative order (take/drop form), every other
collection is untouched, and the response is 200 with no body. -/
theorem c5_delete_first_match (store : Store) (c tok : String) (id : Int) (idx : Nat)
    (htok : atoi tok = some id)
    (hfind : findItemIndex store c id = FindResult.found idx) :
    handleDelete store c [c, tok] true =
      (storeSet store c ((storeGetD store c).take idx ++ (storeGetD store c).drop (idx + 1)),
        Outcome.resp ⟨200, none, none⟩) ∧
    idx < (storeGetD store c).length ∧
    itemIdAssert ((storeGetD store c).getD idx JValue.vNull) = some id ∧
    (∀ l, l < idx →
      ∃ n, itemIdAssert ((storeGetD store c).getD l JValue.vNull) = some n ∧ n ≠ id) ∧
    (∀ c', c' ≠ c →
      storeGet (handleDelete store c [c, tok] true).1 c' = storeGet store c') := by
  have hspec := findScan_found_spec (storeGetD store c) id 0 idx hfind
  have hdel : handleDelete store c [c, tok] true =
      (storeSet store c ((storeGetD store c).take idx ++ (storeGetD store c).drop (idx + 1)),
        Outcome.resp ⟨200, none, none⟩) := by
    simp [handleDelete, htok, hfind]
  refine ⟨hdel, ?_, ?_, ?_, ?_⟩
  · simpa using hspec.2.1
  · simpa using hspec.2.2.1
  · intro l hl
    exact hspec.2.2.2 l (by simpa using hl)
  · intro c' hc'
    rw [hdel]
    exact storeGet_storeSet_ne store c c' _ hc'

/-- C5, witness: deleting id 2 from records with ids `[1,2,3]` leaves
`[1,3]` in order with a 200 empty-body response. -/
theorem c5_witness :
    atoi "2" = some 2 ∧
    findItemIndex
      [("posts", [JValue.vObj [("id", JValue.vNum 1)], JValue.vObj [("id", JValue.vNum 2)],
        JValue.vObj [("id", JValue.vNum 3)]])] "posts" 2 = FindResult.found 1 ∧
    handleDelete
        [("posts", [JValue.vObj [("id", JValue.vNum 1)], JValue.vObj [("id", JValue.vNum 2)],
          JValue.vObj [("id", JValue.vNum 3)]])] "posts" ["posts", "2"] true =
      ([("posts", [JValue.vObj [("id", JValue.vNum 1)], JValue.vObj [("id", JValue.vNum 3)]])],
        Outcome.resp ⟨200, none, none⟩) :=
  ⟨rfl, rfl,
    (c5_delete_first_match
        [("posts", [JValue.vObj [("id", JValue.vNum 1)], JValue.vObj [("id", JValue.vNum 2)],
          JValue.vObj [("id", JValue.vNum 3)]])] "posts" "2" 2 1 rfl rfl).1⟩

/-- C6: when the save fails (`saveOk = false`) after the in-memory
mutation, each of POST, PUT and DELETE answers 500 ("Failed to save
data") while leaving the store in exactly the state a successful save
would have left it — the mutation is not rolled back. -/
theorem c6_failed_save_no_rollback (store : Store) (c tok : String) (id : Int)
    (idx : Nat) (rec : RecordDoc)
    (htok : atoi tok = some id)
    (hfind : findItemIndex store c id = FindResult.found idx) :
    (handlePost store c (some rec) false).1 = (handlePost store c (some rec) true).1 ∧
    (handlePost store c (some rec) false).2 =
      Outcome.resp ⟨500, none, some "Failed to save data"⟩ ∧
    (handlePut store c [c, tok] (some rec) false).1 =
      (handlePut store c [c, tok] (some rec) true).1 ∧
    (handlePut store c [c, tok] (some rec) false).2 =
      Outcome.resp ⟨500, none, some "Failed to save data"⟩ ∧
    (handleDelete store c [c, tok] false).1 = (handleDelete store c [c, tok] true).1 ∧
    (handleDelete store c [c, tok] false).2 =
      Outcome.resp ⟨500, none, some "Failed to save data"⟩ := by
  refine ⟨rfl, rfl, ?_, ?_, ?_, ?_⟩ <;>
    simp [handlePut, handleDelete, htok, hfind]

/-- C6, witness: a DELETE whose save fails reports 500. -/
theorem c6_witness :
    atoi "1" = some 1 ∧
    findItemIndex [("posts", [JValue.vObj [("id", JValue.vNum 1)]])] "posts" 1 =
      FindResult.found 0 ∧
    (handleDelete [("posts", [JValue.vObj [("id", JValue.vNum 1)]])] "posts"
        ["posts", "1"] false).2 =
      Outcome.resp ⟨500, none, some "Failed to save data"⟩ :=
  ⟨rfl, rfl,
    (c6_failed_save_no_rollback [("posts", [JValue.vObj [("id", JValue.vNum 1)]])] "posts"
        "1" 1 0 [("title", JValue.vStr "z")] rfl rfl).2.2.2.2.2⟩

/-- C8: a found index is the first occurrence — the record there has the
target id and every earlier record has a different (float-asserted) id —
and GET, PUT and DELETE all operate on exactly that index: GET returns the
record at it, PUT replaces at it, DELETE removes at it. -/
theorem c8_duplicate_id_first_occurrence (store : Store) (c tok : String) (id : Int)
    (idx : Nat)
    (htok : atoi tok = some id)
    (hfind : findItemIndex store c id = FindResult.found idx) :
    idx < (storeGetD store c).length ∧
    itemIdAssert ((storeGetD store c).getD idx JValue.vNull) = some id ∧
    (∀ l, l < idx →
      ∃ n, itemIdAssert ((storeGetD store c).getD l JValue.vNull) = some n ∧ n ≠ id) ∧
    handleGet store c [c, tok] =
      (store, Outcome.resp ⟨200, some ((storeGetD store c).getD idx JValue.vNull), none⟩) ∧
    (∀ rec, (handlePut store c [c, tok] (some rec) true).1 =
      storeSet store c
        ((storeGetD store c).set idx (JValue.vObj (recSet rec "id" (JValue.vInt id))))) ∧
    (handleDelete store c [c, tok] true).1 =
      storeSet store c ((storeGetD store c).take idx ++ (storeGetD store c).drop (idx + 1)) := by
  have hspec := findScan_found_spec (storeGetD store c) id 0 idx hfind
  obtain ⟨fields, hfld, hscan⟩ := getScanLoop_agrees (storeGetD store c) id 0 idx hfind
  have hst := storeGet_of_found store c id idx hfind
  refine ⟨by simpa using hspec.2.1, by simpa using hspec.2.2.1, ?_, ?_, ?_, ?_⟩
  · intro l hl
    exact hspec.2.2.2 l (by simpa using hl)
  · simp [handleGet, hst, htok, hscan]
    simpa using hfld.symm
  · intro rec
    simp [handlePut, htok, hfind]
  · simp [handleDelete, htok, hfind]

/-- C8, witness: with two records both carrying id 5, the lookup finds
index 0 and GET returns the first of them. -/
theorem c8_witness :
    atoi "5" = some 5 ∧
    findItemIndex
      [("posts", [JValue.vObj [("id", JValue.vNum 5), ("title", JValue.vStr "a")],
        JValue.vObj [("id", JValue.vNum 5), ("title", JValue.vStr "b")]])] "posts" 5 =
      FindResult.found 0 ∧
    handleGet
        [("posts", [JValue.vObj [("id", JValue.vNum 5), ("title", JValue.vStr "a")],
          JValue.vObj [("id", JValue.vNum 5), ("title", JValue.vStr "b")]])]
        "posts" ["posts", "5"] =
      ([("posts", [JValue.vObj [("id", JValue.vNum 5), ("title", JValue.vStr "a")],
          JValue.vObj [("id", JValue.vNum 5), ("title", JValue.vStr "b")]])],
        Outcome.resp
          ⟨200, some (JValue.vObj [("id", JValue.vNum 5), ("title", JValue.vStr "a")]), none⟩) :=
  ⟨rfl, rfl,
    (c8_duplicate_id_first_occurrence
        [("posts", [JValue.vObj [("id", JValue.vNum 5), ("title", JValue.vStr "a")],
          JValue.vObj [("id", JValue.vNum 5), ("title", JValue.vStr "b")]])]
        "posts" "5" 5 0 rfl rfl).2.2.2.1⟩

/-- C10: no request ever removes a collection key — every key present
before a dispatched request is present afterwards — and deleting the last
record of a collection leaves the key mapped to the empty sequence, so a
following `GET /{c}` answers 200 with the empty array. -/
theorem c10_collection_keys_never_removed (store : Store) (method path : String)
    (body : Option RecordDoc) (saveOk : Bool) (c : String)
    (h : (storeGet store c).isSome = true) :
    (storeGet (handleCollection store method path body saveOk).1 c).isSome = true ∧
    (∀ cc tok id item, storeGet store cc = some [item] → atoi tok = some id →
      itemIdAssert item = some id →
      handleGet (handleDelete store cc [cc, tok] true).1 cc [cc] =
        ((handleDelete store cc [cc, tok] true).1,
          Outcome.resp ⟨200, some (JValue.vArr []), none⟩)) := by
  constructor
  · unfold handleCollection
    split
    · rw [handleGet_fst]; exact h
    · exact handlePost_keys _ _ _ _ _ h
    · exact handlePut_keys _ _ _ _ _ _ h
    · exact handleDelete_keys _ _ _ _ _ h
    · exact h
  · intro cc tok id item hcc htok hid
    have hfind : findItemIndex store cc id = FindResult.found 0 := by
      unfold findItemIndex storeGetD
      rw [hcc]
      simp [findScan, hid]
    have hdel : (handleDelete store cc [cc, tok] true).1 = storeSet store cc [] := by
      simp [handleDelete, htok, hfind, storeGetD, hcc]
    rw [hdel]
    simp [handleGet, storeGet_storeSet_self]

/-- C10, witness: deleting the only record of `posts` keeps the key, and
the following list request returns the empty array. -/
theorem c10_witness :
    (storeGet [("posts", [JValue.vObj [("id", JValue.vNum 1)]])] "posts").isSome = true ∧
    (storeGet (handleCollection [("posts", [JValue.vObj [("id", JValue.vNum 1)]])]
        "DELETE" "/posts/1" none true).1 "posts").isSome = true ∧
    handleGet (handleDelete [("posts", [JValue.vObj [("id", JValue.vNum 1)]])] "posts"
        ["posts", "1"] true).1 "posts" ["posts"] =
      ((handleDelete [("posts", [JValue.vObj [("id", JValue.vNum 1)]])] "posts"
          ["posts", "1"] true).1,
        Outcome.resp ⟨200, some (JValue.vArr []), none⟩) := by
  refine ⟨rfl, ?_, ?_⟩
  · exact (c10_collection_keys_never_removed
      [("posts", [JValue.vObj [("id", JValue.vNum 1)]])] "DELETE" "/posts/1" none true
      "posts" rfl).1
  · exact (c10_collection_keys_never_removed
      [("posts", [JValue.vObj [("id", JValue.vNum 1)]])] "DELETE" "/posts/1" none true
      "posts" rfl).2 "posts" "1" 1 (JValue.vObj [("id", JValue.vNum 1)]) rfl rfl rfl

end GoMock
